import Mathlib

/-!
A verification development for the ICP escrow canister in
`src/icp_escrow/src/icp_escrow_backend/src/lib.rs`.

The Rust source is shallowly embedded: machine integers become `Nat` with
explicit `% 2 ^ w` truncation where the source casts, `[u8; 32]` values become
lists of byte values, the `thread_local!` escrow map and counter become an
explicit `CanisterState` threaded through each operation, and fallible
operations return `Except String` carrying the exact error strings of the
source.  The keccak256 hash is an external primitive of the `tiny_keccak`
crate; every definition that hashes takes it as an explicit function
parameter, so all theorems hold for every hash function.
-/

/-- Byte strings of the program; a byte is a natural below 256.
`[u8; 32]` values are lists of length 32. -/
abbrev Bytes := List Nat

/-- `[0u8; 32]`. -/
def zeros32 : Bytes := List.replicate 32 0

/-- `u32::to_be_bytes`: big-endian 4-byte encoding.  The `% 256` projections
express the byte decomposition of a 32-bit word; for arguments below `2 ^ 32`
this is exact. -/
def be4 (x : Nat) : Bytes :=
  [x / 2 ^ 24 % 256, x / 2 ^ 16 % 256, x / 2 ^ 8 % 256, x % 256]

/-- `u32::from_be_bytes` / `u64::from_be_bytes`: the big-endian value of a
byte list. -/
def beVal (l : Bytes) : Nat := l.foldl (fun acc b => acc * 256 + b) 0

/-- `data[off..off + src.length].copy_from_slice(&src)` on an immutable
snapshot of `data`. -/
def writeBytes (data : Bytes) (off : Nat) (src : Bytes) : Bytes :=
  data.take off ++ (src ++ data.drop (off + src.length))

/-- 1inch-compatible `Timelocks`: 7 stage offsets plus a deployment timestamp
packed into 32 bytes (`pub data: [u8; 32]`). -/
structure Timelocks where
  data : Bytes
deriving DecidableEq

/-- `TimelockStage`, ordinals 0-6 exactly as in the source. -/
inductive TimelockStage where
  | SrcWithdrawal
  | SrcPublicWithdrawal
  | SrcCancellation
  | SrcPublicCancellation
  | DstWithdrawal
  | DstPublicWithdrawal
  | DstCancellation
deriving DecidableEq

/-- `stage as usize`: the discriminant of the stage. -/
def TimelockStage.toIdx : TimelockStage → Nat
  | .SrcWithdrawal => 0
  | .SrcPublicWithdrawal => 1
  | .SrcCancellation => 2
  | .SrcPublicCancellation => 3
  | .DstWithdrawal => 4
  | .DstPublicWithdrawal => 5
  | .DstCancellation => 6

/-- `Timelocks::new`: the source zero-initialises 32 bytes, writes stage `i`'s
big-endian bytes at offset `4 * i` for `i = 0..6` (covering bytes 0..28), and
the deployment timestamp at bytes 28..32; every byte is written exactly once,
so the packed word is this concatenation of the eight 4-byte fields. -/
def Timelocks.new (s0 s1 s2 s3 s4 s5 s6 deployedAt : Nat) : Timelocks :=
  ⟨be4 s0 ++ be4 s1 ++ be4 s2 ++ be4 s3 ++ be4 s4 ++ be4 s5 ++ be4 s6
    ++ be4 deployedAt⟩

/-- `Timelocks::get`: reads the stage's 4-byte field at `stage_idx * 4` and
the deployment field at bytes 28..32, and returns their sum as a `u64`.  Both
summands are below `2 ^ 32`, so the `u64` sum is exact and `Nat` addition
models it. -/
def Timelocks.get (tl : Timelocks) (stage : TimelockStage) : Nat :=
  let offset := stage.toIdx * 4
  let stageValue := beVal ((tl.data.drop offset).take 4)
  let deployedValue := beVal ((tl.data.drop 28).take 4)
  deployedValue + stageValue

/-- `Timelocks::set_deployed_at`: overwrites bytes 28..32 with the big-endian
encoding of the timestamp. -/
def Timelocks.set_deployed_at (tl : Timelocks) (deployedAt : Nat) : Timelocks :=
  ⟨writeBytes tl.data 28 (be4 deployedAt)⟩

/-- `Timelocks::deployed_at`: reads bytes 28..32 big-endian. -/
def Timelocks.deployed_at (tl : Timelocks) : Nat :=
  beVal ((tl.data.drop 28).take 4)

/-- `verify_hashlock`: keccak256-hash the secret and compare with the stored
hashlock.  The hash function is the explicit `keccak256` parameter. -/
def verify_hashlock (keccak256 : Bytes → Bytes) (secret hashlock : Bytes) : Bool :=
  decide (keccak256 secret = hashlock)

lemma beVal_be4 (x : Nat) (hx : x < 2 ^ 32) : beVal (be4 x) = x := by
  simp only [beVal, be4, List.foldl]
  omega

lemma be4_length (x : Nat) : (be4 x).length = 4 := rfl

/-- C6: for every 7-tuple of u32 stage offsets, every u32 deployment
timestamp `t`, and every stage, `stage_time(encode(offsets, t), stage)` equals
`t + offsets[stage]` as exact u64 arithmetic, where `encode` is
`Timelocks::new` and `stage_time` is `Timelocks::get`.  The deployment field
at bytes 28..32 does not overlap any stage field: the sum is exact for every
stage simultaneously. -/
theorem timelocks_new_get (s0 s1 s2 s3 s4 s5 s6 t : Nat)
    (h0 : s0 < 2 ^ 32) (h1 : s1 < 2 ^ 32) (h2 : s2 < 2 ^ 32) (h3 : s3 < 2 ^ 32)
    (h4 : s4 < 2 ^ 32) (h5 : s5 < 2 ^ 32) (h6 : s6 < 2 ^ 32) (ht : t < 2 ^ 32) :
    ∀ stage : TimelockStage,
      (Timelocks.new s0 s1 s2 s3 s4 s5 s6 t).get stage
        = t + [s0, s1, s2, s3, s4, s5, s6].getD stage.toIdx 0 := by
  intro stage
  cases stage <;>
    · simp only [Timelocks.new, Timelocks.get, TimelockStage.toIdx, be4, beVal,
        List.cons_append, List.nil_append, List.drop, List.take, List.foldl,
        List.getD_cons_zero, List.getD_cons_succ]
      omega

/-- C6 witness: concrete offsets and deployment time. -/
theorem timelocks_new_get_witness :
    (Timelocks.new 11 22 33 44 55 66 77 1000).get TimelockStage.DstPublicWithdrawal
      = 1000 + 66 := by
  have h := timelocks_new_get 11 22 33 44 55 66 77 1000 (by decide) (by decide)
    (by decide) (by decide) (by decide) (by decide) (by decide) (by decide)
    TimelockStage.DstPublicWithdrawal
  simpa using h

/-- C7: `verify_hashlock secret hashlock` is true exactly when the keccak256
hash of the secret equals the hashlock.  Purity and determinism hold by
construction: the embedding is a function of the hash function and its two
byte-string arguments, taking no state and performing no effect. -/
theorem verify_hashlock_iff (keccak256 : Bytes → Bytes) (secret hashlock : Bytes) :
    verify_hashlock keccak256 secret hashlock = true ↔ keccak256 secret = hashlock := by
  simp [verify_hashlock]

lemma writeBytes_take (data src : Bytes) (off : Nat) (h : off ≤ data.length) :
    (writeBytes data off src).take off = data.take off :=
  List.take_left' (List.length_take_of_le h)

lemma writeBytes_drop (data src : Bytes) (off : Nat) (h : off ≤ data.length) :
    (writeBytes data off src).drop off = src ++ data.drop (off + src.length) :=
  List.drop_left' (List.length_take_of_le h)

lemma take4_drop_of_take28 (l l' : Bytes) (k : Nat) (hk : k + 4 ≤ 28)
    (h : l.take 28 = l'.take 28) :
    (l.drop k).take 4 = (l'.drop k).take 4 := by
  have h1 : (l.take 28).drop k = (l'.take 28).drop k := by rw [h]
  rw [List.drop_take, List.drop_take] at h1
  have h2 : (l.drop k).take 4 = ((l.drop k).take (28 - k)).take 4 := by
    rw [List.take_take, Nat.min_eq_left (by omega)]
  have h3 : (l'.drop k).take 4 = ((l'.drop k).take (28 - k)).take 4 := by
    rw [List.take_take, Nat.min_eq_left (by omega)]
  rw [h2, h3, h1]

lemma timelocks_get_eq (tl : Timelocks) (stage : TimelockStage) :
    tl.get stage = tl.deployed_at + beVal ((tl.data.drop (stage.toIdx * 4)).take 4) := rfl

/-- C10: `set_deployed_at` rewrites only bytes 28..32; bytes 0..28 (the seven
stage-offset fields) are byte-for-byte unchanged, `deployed_at` afterwards
returns the new timestamp, and the offset component of `get` is unchanged for
every stage (stated add-form to avoid truncated subtraction:
`get' + old_deployed = get + t`). -/
theorem set_deployed_at_frame (tl : Timelocks) (t : Nat)
    (hlen : tl.data.length = 32) (ht : t < 2 ^ 32) :
    (tl.set_deployed_at t).data.take 28 = tl.data.take 28
    ∧ (tl.set_deployed_at t).deployed_at = t
    ∧ ∀ stage : TimelockStage,
        (tl.set_deployed_at t).get stage + tl.deployed_at = tl.get stage + t := by
  have hpre : (tl.set_deployed_at t).data.take 28 = tl.data.take 28 :=
    writeBytes_take tl.data (be4 t) 28 (by omega)
  have hdep : (tl.set_deployed_at t).deployed_at = t := by
    show beVal (((writeBytes tl.data 28 (be4 t)).drop 28).take 4) = t
    rw [writeBytes_drop tl.data (be4 t) 28 (by omega),
      List.take_left' (be4_length t), beVal_be4 t ht]
  refine ⟨hpre, hdep, ?_⟩
  intro stage
  have hk : stage.toIdx * 4 + 4 ≤ 28 := by
    cases stage <;> simp [TimelockStage.toIdx]
  have hstage := take4_drop_of_take28 (tl.set_deployed_at t).data tl.data
    (stage.toIdx * 4) hk hpre
  rw [timelocks_get_eq, timelocks_get_eq, hdep, hstage]
  omega

/-- C10 witness: a concrete packed word. -/
theorem set_deployed_at_frame_witness :
    ((Timelocks.new 1 2 3 4 5 6 7 8).set_deployed_at 99).deployed_at = 99 := by
  exact (set_deployed_at_frame (Timelocks.new 1 2 3 4 5 6 7 8) 99
    (by decide) (by decide)).2.1

/-- Canister principals are opaque textual identities here; the escrow logic
only stores and forwards them. -/
abbrev Principal := String

/-- Exact `IBaseEscrow.Immutables`. -/
structure Immutables where
  order_hash : Bytes
  hashlock : Bytes
  maker : Bytes
  taker : Bytes
  token : Bytes
  amount : Bytes
  safety_deposit : Bytes
  timelocks : Timelocks
deriving DecidableEq

/-- `EscrowState`: the mutable per-escrow record. -/
structure EscrowState where
  immutables : Immutables
  icp_recipient : Principal
  token_ledger : Option Principal
  deployed_at : Nat
  secret : Option Bytes
  withdrawn : Bool
  cancelled : Bool
  evm_chain_id : Nat
  evm_escrow_address : String
  auto_withdraw_enabled : Bool
deriving DecidableEq

/-- The `ESCROWS` hash map, modelled as an association list (reachable stores
never hold a key twice; where a proof needs that, it is an explicit
no-duplicate-keys hypothesis). -/
abbrev Store := List (String × EscrowState)

/-- The `thread_local!` global state: the escrow map plus `ESCROW_COUNTER`. -/
structure CanisterState where
  escrows : Store
  counter : Nat
deriving DecidableEq

/-- `HashMap::get` on the association-list model. -/
def lookupE : Store → String → Option EscrowState
  | [], _ => none
  | (k, v) :: rest, key => if k = key then some v else lookupE rest key

/-- `HashMap::get_mut` followed by a record mutation. -/
def modifyE (s : Store) (key : String) (f : EscrowState → EscrowState) : Store :=
  s.map fun p => if p.1 = key then (p.1, f p.2) else p

/-- `HashMap::insert`: replaces an existing binding, otherwise appends. -/
def insertE (s : Store) (key : String) (v : EscrowState) : Store :=
  if (lookupE s key).isSome then modifyE s key (fun _ => v) else s ++ [(key, v)]

/-- Decimal rendering of a natural number, structurally recursive on a fuel
bound so that it evaluates inside the kernel; `natDigits` supplies enough
fuel for every input. -/
def natDigitsAux : Nat → Nat → List Char
  | 0, _ => []
  | fuel + 1, n =>
    if n < 10 then [Nat.digitChar n]
    else natDigitsAux fuel (n / 10) ++ [Nat.digitChar (n % 10)]

/-- Decimal rendering of a natural number, as `format!` renders a `u64`. -/
def natDigits (n : Nat) : List Char := natDigitsAux (n + 1) n

/-- `format!` with the decimal rendering of a natural. -/
def natStr (n : Nat) : String := String.mk (natDigits n)

/-- The identifier `generate_escrow_id` issues for counter value `n`:
`format!` of the pattern with the counter. -/
def escrowId (n : Nat) : String := "escrow_" ++ natStr n

/-- `u256_to_u64`: big-endian value of bytes 24..32. -/
def u256_to_u64 (value : Bytes) : Nat := beVal ((value.drop 24).take 8)

/-- The external call an operation performs after its synchronous store
mutation: an `icrc1_transfer` on a ledger canister (`transfer_icrc1_tokens`),
or only an `ic_cdk::print` (the native-ICP withdrawal path, and both branches
of cancellation, are logged as not implemented in the source). -/
inductive PostAction where
  | icrcTransfer (ledger : Principal) (recipient : Principal) (amount : Nat)
  | logOnly
deriving DecidableEq

/-- Whether the post action invokes the Ledger Adapter. -/
def PostAction.isLedgerCall : PostAction → Bool
  | .icrcTransfer .. => true
  | .logOnly => false

/-- `create_escrow_with_immutables`.  `now` is `current_time_seconds()`; the
`% 2 ^ 32` mirrors the `current_time as u32` cast.  The returned pair is the
state after the call together with its `Result`. -/
def create_escrow_with_immutables (now : Nat) (st : CanisterState)
    (immutables : Immutables) (icp_recipient : Principal)
    (token_ledger : Option Principal) (evm_chain_id : Nat)
    (evm_escrow_address : String) : CanisterState × Except String String :=
  if immutables.order_hash = zeros32 ∨ immutables.hashlock = zeros32 then
    (st, Except.error "Invalid order hash or hashlock")
  else
    let counter := st.counter + 1
    let escrow_id := escrowId counter
    let timelocks := immutables.timelocks.set_deployed_at (now % 2 ^ 32)
    let updated_immutables := { immutables with timelocks := timelocks }
    let escrow_state : EscrowState := {
      immutables := updated_immutables
      icp_recipient := icp_recipient
      token_ledger := token_ledger
      deployed_at := now
      secret := none
      withdrawn := false
      cancelled := false
      evm_chain_id := evm_chain_id
      evm_escrow_address := evm_escrow_address
      auto_withdraw_enabled := true }
    ({ escrows := insertE st.escrows escrow_id escrow_state, counter := counter },
      Except.ok escrow_id)

/-- `withdraw_with_secret` (Restricted path): the synchronous section checks,
mutates, and hands the extracted transfer data to the asynchronous tail,
which either calls `transfer_icrc1_tokens` or only logs. -/
def withdraw_with_secret (keccak256 : Bytes → Bytes) (now : Nat)
    (st : CanisterState) (escrow_id : String) (secret : Bytes) :
    CanisterState × Except String PostAction :=
  match lookupE st.escrows escrow_id with
  | none => (st, Except.error "Escrow not found")
  | some escrow =>
    if escrow.withdrawn then (st, Except.error "Escrow already withdrawn")
    else if escrow.cancelled then (st, Except.error "Escrow already cancelled")
    else if !verify_hashlock keccak256 secret escrow.immutables.hashlock then
      (st, Except.error "Invalid secret provided")
    else
      let dst_withdrawal_time := escrow.immutables.timelocks.get TimelockStage.DstWithdrawal
      if now < dst_withdrawal_time then
        (st, Except.error ("DstWithdrawal timelock not met. Current: "
          ++ natStr now ++ ", Required: " ++ natStr dst_withdrawal_time))
      else
        let escrows := modifyE st.escrows escrow_id
          (fun e => { e with withdrawn := true, secret := some secret })
        ({ st with escrows := escrows },
          Except.ok (match escrow.token_ledger with
            | some ledger => PostAction.icrcTransfer ledger escrow.icp_recipient
                (u256_to_u64 escrow.immutables.amount)
            | none => PostAction.logOnly))

/-- `public_withdraw_with_secret` (Public path): like the Restricted path but
with a single combined terminal check and the `DstPublicWithdrawal` stage. -/
def public_withdraw_with_secret (keccak256 : Bytes → Bytes) (now : Nat)
    (st : CanisterState) (escrow_id : String) (secret : Bytes) :
    CanisterState × Except String PostAction :=
  match lookupE st.escrows escrow_id with
  | none => (st, Except.error "Escrow not found")
  | some escrow =>
    if escrow.withdrawn || escrow.cancelled then
      (st, Except.error "Escrow already completed")
    else if !verify_hashlock keccak256 secret escrow.immutables.hashlock then
      (st, Except.error "Invalid secret provided")
    else
      let public_withdrawal_time :=
        escrow.immutables.timelocks.get TimelockStage.DstPublicWithdrawal
      if now < public_withdrawal_time then
        (st, Except.error ("DstPublicWithdrawal timelock not met. Current: "
          ++ natStr now ++ ", Required: " ++ natStr public_withdrawal_time))
      else
        let escrows := modifyE st.escrows escrow_id
          (fun e => { e with withdrawn := true, secret := some secret })
        ({ st with escrows := escrows },
          Except.ok (match escrow.token_ledger with
            | some ledger => PostAction.icrcTransfer ledger escrow.icp_recipient
                (u256_to_u64 escrow.immutables.amount)
            | none => PostAction.logOnly))

/-- `cancel_escrow`: after the checks it sets `cancelled`; both token-ledger
branches of the asynchronous tail only print (deposits are not implemented in
the source), so the post action is always `logOnly`. -/
def cancel_escrow (now : Nat) (st : CanisterState) (escrow_id : String) :
    CanisterState × Except String PostAction :=
  match lookupE st.escrows escrow_id with
  | none => (st, Except.error "Escrow not found")
  | some escrow =>
    if escrow.withdrawn then
      (st, Except.error "Cannot cancel: escrow already withdrawn")
    else if escrow.cancelled then (st, Except.error "Escrow already cancelled")
    else
      let cancellation_time := escrow.immutables.timelocks.get TimelockStage.DstCancellation
      if now < cancellation_time then
        (st, Except.error ("DstCancellation timelock not met. Current: "
          ++ natStr now ++ ", Required: " ++ natStr cancellation_time))
      else
        let escrows := modifyE st.escrows escrow_id
          (fun e => { e with cancelled := true })
        ({ st with escrows := escrows },
          Except.ok PostAction.logOnly)

/-- `set_auto_withdraw`: only the existence check guards the flag update. -/
def set_auto_withdraw (st : CanisterState) (escrow_id : String) (enabled : Bool) :
    CanisterState × Except String Unit :=
  match lookupE st.escrows escrow_id with
  | none => (st, Except.error "Escrow not found")
  | some _ =>
    let escrows := modifyE st.escrows escrow_id
      (fun e => { e with auto_withdraw_enabled := enabled })
    ({ st with escrows := escrows },
      Except.ok ())

/-- An EVM log entry as returned by `eth_getLogs` (`LogEntry`). -/
structure LogEntry where
  address : String
  topics : List String
  data : String
  block_number : Option String
  transaction_hash : Option String
  log_index : Option String
deriving DecidableEq

/-- `GetLogsResponse`: a parsed JSON-RPC body.  The untyped JSON error value
is kept as its rendered text. -/
structure GetLogsResponse where
  jsonrpc : String
  id : Nat
  result : Option (List LogEntry)
  error : Option String
deriving DecidableEq

/-- Outcome of the remote `eth_getLogs` round trip, at the host boundary:
transport failure of the inter-canister call, an `RpcResult::Err` payload, a
body that `serde_json` fails to parse as `GetLogsResponse`, or a parsed
response. -/
inductive RpcOutcome where
  | callError (msg : String)
  | rpcError (msg : String)
  | parseError (msg : String)
  | parsed (response : GetLogsResponse)
deriving DecidableEq

/-- Value of one hex digit, as `hex::decode` accepts. -/
def hexDigit (c : Char) : Option Nat :=
  if '0' ≤ c ∧ c ≤ '9' then some (c.toNat - '0'.toNat)
  else if 'a' ≤ c ∧ c ≤ 'f' then some (c.toNat - 'a'.toNat + 10)
  else if 'A' ≤ c ∧ c ≤ 'F' then some (c.toNat - 'A'.toNat + 10)
  else none

/-- `hex::decode` on a character list: consumes hex-digit pairs; odd length
or a non-hex character fails. -/
def hexDecodeChars : List Char → Option Bytes
  | [] => some []
  | [_] => none
  | c1 :: c2 :: rest =>
    match hexDigit c1, hexDigit c2, hexDecodeChars rest with
    | some hi, some lo, some bs => some ((hi * 16 + lo) :: bs)
    | _, _, _ => none

/-- `str::trim_start_matches("0x")`: removes every leading `0x` repetition. -/
def trimStart0x : List Char → List Char
  | '0' :: 'x' :: rest => trimStart0x rest
  | l => l

/-- `hex::decode(topic.trim_start_matches("0x"))`. -/
def hexDecode0x (s : String) : Option Bytes := hexDecodeChars (trimStart0x s.data)

/-- The log-scanning loop of `monitor_evm_secret_revelation`: the first entry
with at least 3 topics whose third topic hex-decodes to exactly 32 bytes that
keccak256-hash to the stored hashlock yields that secret; every other entry
is skipped. -/
def scanLogs (keccak256 : Bytes → Bytes) (hashlock : Bytes) :
    List LogEntry → Option Bytes
  | [] => none
  | log :: rest =>
    if 3 ≤ log.topics.length then
      match log.topics.get? 2 with
      | some topic =>
        match hexDecode0x topic with
        | some secret_bytes =>
          if secret_bytes.length = 32 then
            if keccak256 secret_bytes = hashlock then some secret_bytes
            else scanLogs keccak256 hashlock rest
          else scanLogs keccak256 hashlock rest
        | none => scanLogs keccak256 hashlock rest
      | none => scanLogs keccak256 hashlock rest
    else scanLogs keccak256 hashlock rest

/-- `monitor_evm_secret_revelation`: the store checks run first; the remote
round trip is the `rpc` parameter; a parsed response with an absent `result`
list means no logs. -/
def monitor_evm_secret_revelation (keccak256 : Bytes → Bytes)
    (st : CanisterState) (escrow_id : String) (rpc : RpcOutcome) :
    Except String (Option Bytes) :=
  match lookupE st.escrows escrow_id with
  | none => Except.error "Escrow not found"
  | some escrow =>
    if escrow.withdrawn || escrow.cancelled then
      Except.error "Escrow already completed"
    else
      match rpc with
      | RpcOutcome.callError msg =>
        Except.error ("Failed to call EVM RPC canister: " ++ msg)
      | RpcOutcome.rpcError msg => Except.error ("EVM RPC error: " ++ msg)
      | RpcOutcome.parseError msg =>
        Except.error ("Failed to parse EVM RPC response: " ++ msg)
      | RpcOutcome.parsed response =>
        match response.result with
        | some logs => Except.ok (scanLogs keccak256 escrow.immutables.hashlock logs)
        | none => Except.ok none

/-- The claim's notion of a matching log entry: the third topic hex-decodes
to a 32-byte value whose keccak256 hash equals the stored hashlock.  Stated
from the spec's words, to compare against `scanLogs`. -/
def specEntrySecret (keccak256 : Bytes → Bytes) (hashlock : Bytes)
    (log : LogEntry) : Option Bytes :=
  match log.topics.get? 2 with
  | some topic =>
    match hexDecode0x topic with
    | some s => if s.length = 32 ∧ keccak256 s = hashlock then some s else none
    | none => none
  | none => none

lemma modifyE_cons (k : String) (v : EscrowState) (rest : Store) (key : String)
    (f : EscrowState → EscrowState) :
    modifyE ((k, v) :: rest) key f
      = (if k = key then (k, f v) else (k, v)) :: modifyE rest key f := by
  simp [modifyE]

lemma lookupE_modifyE (s : Store) (key : String) (f : EscrowState → EscrowState) :
    lookupE (modifyE s key f) key = (lookupE s key).map f := by
  induction s with
  | nil => rfl
  | cons p rest ih =>
    obtain ⟨k, v⟩ := p
    rw [modifyE_cons]
    by_cases h : k = key
    · rw [if_pos h]
      simp [lookupE, h]
    · rw [if_neg h]
      simp [lookupE, h, ih]

lemma mem_modifyE {s : Store} {key : String} {f : EscrowState → EscrowState}
    {p : String × EscrowState} (hp : p ∈ modifyE s key f) :
    ∃ q, q ∈ s ∧ p = (if q.1 = key then (q.1, f q.2) else q) := by
  simp only [modifyE, List.mem_map] at hp
  obtain ⟨q, hq, rfl⟩ := hp
  exact ⟨q, hq, rfl⟩

lemma lookupE_mem {s : Store} {k : String} {v : EscrowState}
    (h : lookupE s k = some v) : (k, v) ∈ s := by
  induction s with
  | nil => simp [lookupE] at h
  | cons p rest ih =>
    obtain ⟨k0, v0⟩ := p
    by_cases he : k0 = k
    · subst he
      simp [lookupE] at h
      subst h
      exact List.mem_cons_self _ _
    · simp only [lookupE] at h
      rw [if_neg he] at h
      exact List.mem_cons_of_mem _ (ih h)

lemma lookupE_of_mem {s : Store} (hnd : (s.map Prod.fst).Nodup) {k : String}
    {v : EscrowState} (h : (k, v) ∈ s) : lookupE s k = some v := by
  induction s with
  | nil => simp at h
  | cons p rest ih =>
    obtain ⟨k0, v0⟩ := p
    simp only [List.map_cons, List.nodup_cons] at hnd
    rcases List.mem_cons.1 h with heq | hm
    · cases heq
      simp [lookupE]
    · have hne : k0 ≠ k := by
        intro he
        subst he
        exact hnd.1 (List.mem_map.2 ⟨(k0, v), hm, rfl⟩)
      simp [lookupE, hne, ih hnd.2 hm]

lemma lookupE_eq_none_iff {s : Store} {k : String} :
    lookupE s k = none ↔ ∀ p ∈ s, p.1 ≠ k := by
  induction s with
  | nil => simp [lookupE]
  | cons p rest ih =>
    obtain ⟨k0, v0⟩ := p
    by_cases h : k0 = k <;> simp [lookupE, h, ih]

lemma lookupE_append_some {s : Store} {k : String} {v : EscrowState}
    (h : lookupE s k = none) : lookupE (s ++ [(k, v)]) k = some v := by
  induction s with
  | nil => simp [lookupE]
  | cons p rest ih =>
    obtain ⟨k0, v0⟩ := p
    by_cases he : k0 = k
    · simp [lookupE, he] at h
    · simp only [List.cons_append, lookupE, if_neg he]
      exact ih (by simpa [lookupE, he] using h)

lemma natDigitsAux_irrel : ∀ n f1 f2, n < f1 → n < f2 →
    natDigitsAux f1 n = natDigitsAux f2 n := by
  intro n
  induction n using Nat.strong_induction_on with
  | _ n ih =>
    intro f1 f2 h1 h2
    match f1, f2 with
    | fa + 1, fb + 1 =>
      by_cases hn : n < 10
      · simp [natDigitsAux, hn]
      · have hd : n / 10 < n := Nat.div_lt_self (by omega) (by omega)
        simp only [natDigitsAux, hn, if_false]
        exact congrArg (fun l => l ++ [Nat.digitChar (n % 10)])
          (ih (n / 10) hd fa fb (by omega) (by omega))

lemma digitChar_inj : ∀ d < 10, ∀ e < 10, Nat.digitChar d = Nat.digitChar e → d = e := by
  decide

lemma natDigits_eq (n : Nat) : natDigits n =
    if n < 10 then [Nat.digitChar n]
    else natDigits (n / 10) ++ [Nat.digitChar (n % 10)] := by
  unfold natDigits
  by_cases hn : n < 10
  · simp [natDigitsAux, hn]
  · have hd : n / 10 < n := Nat.div_lt_self (by omega) (by omega)
    simp only [natDigitsAux, hn, if_false]
    exact congrArg (fun l => l ++ [Nat.digitChar (n % 10)])
      (natDigitsAux_irrel (n / 10) n (n / 10 + 1) (by omega) (by omega))

lemma natDigits_ne_nil (n : Nat) : natDigits n ≠ [] := by
  rw [natDigits_eq]
  split
  · simp
  · simp

lemma natDigits_inj : ∀ m n : Nat, natDigits m = natDigits n → m = n := by
  intro m
  induction m using Nat.strong_induction_on with
  | _ m ih =>
    intro n h
    rw [natDigits_eq m, natDigits_eq n] at h
    by_cases hm : m < 10 <;> by_cases hn : n < 10 <;>
      simp only [hm, hn, if_true, if_false] at h
    · injection h with h1 _
      exact digitChar_inj m hm n hn h1
    · have hl := congrArg List.length h
      simp only [List.length_cons, List.length_nil, List.length_append] at hl
      have h0 : (natDigits (n / 10)).length = 0 := by omega
      exact absurd (List.length_eq_zero.1 h0) (natDigits_ne_nil (n / 10))
    · have hl := congrArg List.length h
      simp only [List.length_cons, List.length_nil, List.length_append] at hl
      have h0 : (natDigits (m / 10)).length = 0 := by omega
      exact absurd (List.length_eq_zero.1 h0) (natDigits_ne_nil (m / 10))
    · obtain ⟨h1, h2⟩ := List.append_inj' h rfl
      injection h2 with hc _
      have hmod : m % 10 = n % 10 :=
        digitChar_inj (m % 10) (Nat.mod_lt _ (by omega)) (n % 10)
          (Nat.mod_lt _ (by omega)) hc
      have hdiv : m / 10 = n / 10 :=
        ih (m / 10) (Nat.div_lt_self (by omega) (by omega)) (n / 10) h1
      omega

lemma string_data_append (a b : String) : (a ++ b).data = a.data ++ b.data := rfl

lemma string_data_mk (l : List Char) : (String.mk l).data = l := rfl

lemma escrowId_inj {m n : Nat} (h : escrowId m = escrowId n) : m = n := by
  apply natDigits_inj
  have hd := congrArg String.data h
  simp only [escrowId, natStr, string_data_append, string_data_mk] at hd
  exact List.append_cancel_left hd

/-- The C2 predicate: no record has both terminal flags set. -/
def StoreInv (st : CanisterState) : Prop :=
  ∀ p ∈ st.escrows, p.2.withdrawn = false ∨ p.2.cancelled = false

lemma storeInv_modify (s : Store) (hnd : (s.map Prod.fst).Nodup)
    (hinv : ∀ p ∈ s, p.2.withdrawn = false ∨ p.2.cancelled = false)
    (key : String) (f : EscrowState → EscrowState)
    (hf : ∀ v, lookupE s key = some v →
      (f v).withdrawn = false ∨ (f v).cancelled = false) :
    ∀ p ∈ modifyE s key f, p.2.withdrawn = false ∨ p.2.cancelled = false := by
  intro p hp
  obtain ⟨q, hq, hpe⟩ := mem_modifyE hp
  by_cases h : q.1 = key
  · rw [hpe, if_pos h]
    have hmem : (key, q.2) ∈ s := by
      have hq2 : (q.1, q.2) ∈ s := by simpa using hq
      rwa [h] at hq2
    exact hf q.2 (lookupE_of_mem hnd hmem)
  · rw [hpe, if_neg h]
    exact hinv q hq

lemma storeInv_insert (s : Store)
    (hinv : ∀ p ∈ s, p.2.withdrawn = false ∨ p.2.cancelled = false)
    (key : String) (v : EscrowState)
    (hv : v.withdrawn = false ∨ v.cancelled = false) :
    ∀ p ∈ insertE s key v, p.2.withdrawn = false ∨ p.2.cancelled = false := by
  intro p hp
  unfold insertE at hp
  split at hp
  · obtain ⟨q, hq, hpe⟩ := mem_modifyE hp
    by_cases h : q.1 = key
    · rw [hpe, if_pos h]
      exact hv
    · rw [hpe, if_neg h]
      exact hinv q hq
  · rcases List.mem_append.1 hp with h | h
    · exact hinv p h
    · simp only [List.mem_singleton] at h
      rw [h]
      exact hv

lemma create_preserves_inv (now : Nat) (st : CanisterState) (immutables : Immutables)
    (recipient : Principal) (ledger : Option Principal) (chain : Nat) (addr : String)
    (hinv : StoreInv st) :
    StoreInv (create_escrow_with_immutables now st immutables recipient ledger chain addr).1 := by
  unfold create_escrow_with_immutables
  split
  · exact hinv
  · exact storeInv_insert st.escrows hinv _ _ (Or.inl rfl)

lemma withdraw_preserves_inv (keccak256 : Bytes → Bytes) (now : Nat)
    (st : CanisterState) (escrow_id : String) (secret : Bytes)
    (hnd : (st.escrows.map Prod.fst).Nodup) (hinv : StoreInv st) :
    StoreInv (withdraw_with_secret keccak256 now st escrow_id secret).1 := by
  unfold withdraw_with_secret
  cases hl : lookupE st.escrows escrow_id with
  | none => exact hinv
  | some escrow =>
    dsimp only
    split_ifs with hw hc hv htl
    · exact hinv
    · exact hinv
    · exact hinv
    · exact hinv
    · exact fun p hp => storeInv_modify st.escrows hnd hinv escrow_id
        (fun e => { e with withdrawn := true, secret := some secret })
        (fun v hv2 => by
          rw [hl] at hv2
          cases hv2
          right
          simpa using hc) p hp

lemma public_withdraw_preserves_inv (keccak256 : Bytes → Bytes) (now : Nat)
    (st : CanisterState) (escrow_id : String) (secret : Bytes)
    (hnd : (st.escrows.map Prod.fst).Nodup) (hinv : StoreInv st) :
    StoreInv (public_withdraw_with_secret keccak256 now st escrow_id secret).1 := by
  unfold public_withdraw_with_secret
  cases hl : lookupE st.escrows escrow_id with
  | none => exact hinv
  | some escrow =>
    dsimp only
    split_ifs with hwc hv htl
    · exact hinv
    · exact hinv
    · exact hinv
    · exact fun p hp => storeInv_modify st.escrows hnd hinv escrow_id
        (fun e => { e with withdrawn := true, secret := some secret })
        (fun v hv2 => by
          rw [hl] at hv2
          cases hv2
          right
          simp only [Bool.or_eq_true, not_or] at hwc
          simpa using hwc.2) p hp

lemma cancel_preserves_inv (now : Nat) (st : CanisterState) (escrow_id : String)
    (hnd : (st.escrows.map Prod.fst).Nodup) (hinv : StoreInv st) :
    StoreInv (cancel_escrow now st escrow_id).1 := by
  unfold cancel_escrow
  cases hl : lookupE st.escrows escrow_id with
  | none => exact hinv
  | some escrow =>
    dsimp only
    split_ifs with hw hc htl
    · exact hinv
    · exact hinv
    · exact hinv
    · exact fun p hp => storeInv_modify st.escrows hnd hinv escrow_id
        (fun e => { e with cancelled := true })
        (fun v hv2 => by
          rw [hl] at hv2
          cases hv2
          left
          simpa using hw) p hp

lemma set_auto_preserves_inv (st : CanisterState) (escrow_id : String) (enabled : Bool)
    (hnd : (st.escrows.map Prod.fst).Nodup) (hinv : StoreInv st) :
    StoreInv (set_auto_withdraw st escrow_id enabled).1 := by
  unfold set_auto_withdraw
  cases hl : lookupE st.escrows escrow_id with
  | none => exact hinv
  | some escrow =>
    dsimp only
    exact fun p hp => storeInv_modify st.escrows hnd hinv escrow_id
      (fun e => { e with auto_withdraw_enabled := enabled })
      (fun v hv2 => hinv (escrow_id, v) (lookupE_mem hv2)) p hp

/-- C2: on every store whose records satisfy "not both `withdrawn` and
`cancelled`" (and whose keys are unique, as a hash map guarantees), every
operation — create, withdraw, public withdraw, cancel, `set_auto_withdraw` —
yields a store all of whose records still satisfy it; the empty initial store
satisfies it. -/
theorem ops_preserve_terminal_exclusion (st : CanisterState)
    (hnd : (st.escrows.map Prod.fst).Nodup) (hinv : StoreInv st) :
    StoreInv { escrows := [], counter := 0 }
    ∧ (∀ now immutables recipient ledger chain addr,
        StoreInv (create_escrow_with_immutables now st immutables recipient
          ledger chain addr).1)
    ∧ (∀ keccak256 now escrow_id secret,
        StoreInv (withdraw_with_secret keccak256 now st escrow_id secret).1)
    ∧ (∀ keccak256 now escrow_id secret,
        StoreInv (public_withdraw_with_secret keccak256 now st escrow_id secret).1)
    ∧ (∀ now escrow_id, StoreInv (cancel_escrow now st escrow_id).1)
    ∧ (∀ escrow_id enabled, StoreInv (set_auto_withdraw st escrow_id enabled).1) := by
  refine ⟨fun p hp => absurd hp (List.not_mem_nil p), ?_, ?_, ?_, ?_, ?_⟩
  · intro now immutables recipient ledger chain addr
    exact create_preserves_inv now st immutables recipient ledger chain addr hinv
  · intro keccak256 now escrow_id secret
    exact withdraw_preserves_inv keccak256 now st escrow_id secret hnd hinv
  · intro keccak256 now escrow_id secret
    exact public_withdraw_preserves_inv keccak256 now st escrow_id secret hnd hinv
  · intro now escrow_id
    exact cancel_preserves_inv now st escrow_id hnd hinv
  · intro escrow_id enabled
    exact set_auto_preserves_inv st escrow_id enabled hnd hinv

/-- A stand-in hash function used when instantiating hash-generic theorems on
concrete inputs (they hold for every hash function). -/
def idHash : Bytes → Bytes := fun b => b

def sampleSecret : Bytes := List.replicate 32 1

/-- Deployed at 1000: DstWithdrawal at 1005, DstPublicWithdrawal at 1095,
DstCancellation at 1200. -/
def sampleTimelocks : Timelocks := Timelocks.new 10 120 121 150 5 95 200 1000

def sampleImmutables : Immutables := {
  order_hash := List.replicate 32 2
  hashlock := sampleSecret
  maker := List.replicate 32 3
  taker := List.replicate 32 4
  token := zeros32
  amount := List.replicate 24 0 ++ [0, 0, 0, 0, 0, 0, 0, 5]
  safety_deposit := zeros32
  timelocks := sampleTimelocks }

def sampleEscrow : EscrowState := {
  immutables := sampleImmutables
  icp_recipient := "recipient"
  token_ledger := some "ledger"
  deployed_at := 1000
  secret := none
  withdrawn := false
  cancelled := false
  evm_chain_id := 84532
  evm_escrow_address := "0xaaaa"
  auto_withdraw_enabled := true }

def sampleState : CanisterState :=
  { escrows := [("escrow_1", sampleEscrow)], counter := 1 }

def sampleWithdrawnState : CanisterState :=
  { escrows := [("escrow_1", { sampleEscrow with withdrawn := true })], counter := 1 }

def sampleCancelledState : CanisterState :=
  { escrows := [("escrow_1", { sampleEscrow with cancelled := true })], counter := 1 }

/-- C2 witness: a successful cancellation on a concrete one-record store. -/
theorem ops_preserve_terminal_exclusion_witness :
    StoreInv (cancel_escrow 2000 sampleState "escrow_1").1 := by
  refine (ops_preserve_terminal_exclusion sampleState (by decide)
    ?_).2.2.2.2.1 2000 "escrow_1"
  intro p hp
  simp only [sampleState, List.mem_singleton] at hp
  subst hp
  left
  rfl

/-- C3 counterexample: `set_auto_withdraw` succeeds on a withdrawn (terminal)
record and mutates it, so not every state-changing call on a terminal record
returns an error and leaves it unchanged. -/
theorem terminal_set_auto_withdraw_counterexample :
    (set_auto_withdraw sampleWithdrawnState "escrow_1" false).2 = Except.ok ()
    ∧ (set_auto_withdraw sampleWithdrawnState "escrow_1" false).1
        ≠ sampleWithdrawnState := by
  constructor
  · rfl
  · decide

/-- C3 corrected: once a record is terminal (withdrawn or cancelled), the
withdraw, public-withdraw and cancel calls naming it fail and leave the state
unchanged; `set_auto_withdraw`, however, still succeeds on a terminal record
and rewrites its `auto_withdraw_enabled` flag (changing nothing else in it). -/
theorem terminal_records_reject_mutation (st : CanisterState) (escrow_id : String)
    (e : EscrowState) (hl : lookupE st.escrows escrow_id = some e)
    (hterm : e.withdrawn = true ∨ e.cancelled = true) :
    (∀ keccak256 now secret,
      (withdraw_with_secret keccak256 now st escrow_id secret).1 = st
      ∧ ∃ msg, (withdraw_with_secret keccak256 now st escrow_id secret).2
          = Except.error msg)
    ∧ (∀ keccak256 now secret,
      (public_withdraw_with_secret keccak256 now st escrow_id secret).1 = st
      ∧ (public_withdraw_with_secret keccak256 now st escrow_id secret).2
          = Except.error "Escrow already completed")
    ∧ (∀ now,
      (cancel_escrow now st escrow_id).1 = st
      ∧ ∃ msg, (cancel_escrow now st escrow_id).2 = Except.error msg)
    ∧ (∀ enabled,
      (set_auto_withdraw st escrow_id enabled).2 = Except.ok ()
      ∧ lookupE (set_auto_withdraw st escrow_id enabled).1.escrows escrow_id
          = some { e with auto_withdraw_enabled := enabled }) := by
  refine ⟨?_, ?_, ?_, ?_⟩
  · intro keccak256 now secret
    by_cases hw : e.withdrawn = true
    · simp [withdraw_with_secret, hl, hw]
    · have hc : e.cancelled = true := hterm.resolve_left hw
      simp [withdraw_with_secret, hl, hw, hc]
  · intro keccak256 now secret
    have hwc : (e.withdrawn || e.cancelled) = true := by
      rcases hterm with h | h <;> simp [h]
    simp [public_withdraw_with_secret, hl, hwc]
  · intro now
    by_cases hw : e.withdrawn = true
    · simp [cancel_escrow, hl, hw]
    · have hc : e.cancelled = true := hterm.resolve_left hw
      simp [cancel_escrow, hl, hw, hc]
  · intro enabled
    constructor
    · simp [set_auto_withdraw, hl]
    · simp only [set_auto_withdraw, hl]
      rw [lookupE_modifyE, hl]
      rfl

/-- C3 witness: a cancelled record rejects cancellation and stays intact. -/
theorem terminal_records_reject_mutation_witness :
    (cancel_escrow 2000 sampleCancelledState "escrow_1").1 = sampleCancelledState := by
  exact ((terminal_records_reject_mutation sampleCancelledState "escrow_1"
    { sampleEscrow with cancelled := true } (by decide) (Or.inr rfl)).2.2.1 2000).1

/-- C1 counterexample: on a cancelled (not withdrawn) record the Public path
reports the combined error "Escrow already completed", not the distinct
`AlreadyCancelled` error ("Escrow already cancelled") the claim requires. -/
theorem withdraw_precondition_order_counterexample :
    (public_withdraw_with_secret idHash 2000 sampleCancelledState "escrow_1"
        sampleSecret).2 = Except.error "Escrow already completed"
    ∧ (Except.error "Escrow already completed" : Except String PostAction)
        ≠ Except.error "Escrow already cancelled" := by
  constructor
  · rfl
  · intro h
    injection h with h1
    exact absurd h1 (by decide)

/-- C1 corrected: both withdrawal paths check their preconditions in the
claimed order with the first failing check winning — record exists, not
terminal, secret hashes to the hashlock, stage time reached — and on success
the synchronous section marks the record withdrawn and stores the revealed
secret, the transfer being only the returned post action.  The Restricted
path reports `AlreadyWithdrawn` / `AlreadyCancelled` distinctly; the Public
path folds both terminal checks into one check with the single combined
error "Escrow already completed". -/
theorem withdraw_precondition_order (keccak256 : Bytes → Bytes) (now : Nat)
    (st : CanisterState) (escrow_id : String) (secret : Bytes) :
    (lookupE st.escrows escrow_id = none →
      withdraw_with_secret keccak256 now st escrow_id secret
        = (st, Except.error "Escrow not found"))
    ∧ (∀ e, lookupE st.escrows escrow_id = some e → e.withdrawn = true →
      withdraw_with_secret keccak256 now st escrow_id secret
        = (st, Except.error "Escrow already withdrawn"))
    ∧ (∀ e, lookupE st.escrows escrow_id = some e → e.withdrawn = false →
      e.cancelled = true →
      withdraw_with_secret keccak256 now st escrow_id secret
        = (st, Except.error "Escrow already cancelled"))
    ∧ (∀ e, lookupE st.escrows escrow_id = some e → e.withdrawn = false →
      e.cancelled = false →
      verify_hashlock keccak256 secret e.immutables.hashlock = false →
      withdraw_with_secret keccak256 now st escrow_id secret
        = (st, Except.error "Invalid secret provided"))
    ∧ (∀ e, lookupE st.escrows escrow_id = some e → e.withdrawn = false →
      e.cancelled = false →
      verify_hashlock keccak256 secret e.immutables.hashlock = true →
      now < e.immutables.timelocks.get TimelockStage.DstWithdrawal →
      withdraw_with_secret keccak256 now st escrow_id secret
        = (st, Except.error ("DstWithdrawal timelock not met. Current: "
            ++ natStr now ++ ", Required: "
            ++ natStr (e.immutables.timelocks.get TimelockStage.DstWithdrawal))))
    ∧ (∀ e, lookupE st.escrows escrow_id = some e → e.withdrawn = false →
      e.cancelled = false →
      verify_hashlock keccak256 secret e.immutables.hashlock = true →
      e.immutables.timelocks.get TimelockStage.DstWithdrawal ≤ now →
      lookupE (withdraw_with_secret keccak256 now st escrow_id secret).1.escrows
          escrow_id
        = some { e with withdrawn := true, secret := some secret }
      ∧ ∃ a, (withdraw_with_secret keccak256 now st escrow_id secret).2
          = Except.ok a)
    ∧ (lookupE st.escrows escrow_id = none →
      public_withdraw_with_secret keccak256 now st escrow_id secret
        = (st, Except.error "Escrow not found"))
    ∧ (∀ e, lookupE st.escrows escrow_id = some e →
      (e.withdrawn || e.cancelled) = true →
      public_withdraw_with_secret keccak256 now st escrow_id secret
        = (st, Except.error "Escrow already completed"))
    ∧ (∀ e, lookupE st.escrows escrow_id = some e →
      (e.withdrawn || e.cancelled) = false →
      verify_hashlock keccak256 secret e.immutables.hashlock = false →
      public_withdraw_with_secret keccak256 now st escrow_id secret
        = (st, Except.error "Invalid secret provided"))
    ∧ (∀ e, lookupE st.escrows escrow_id = some e →
      (e.withdrawn || e.cancelled) = false →
      verify_hashlock keccak256 secret e.immutables.hashlock = true →
      now < e.immutables.timelocks.get TimelockStage.DstPublicWithdrawal →
      public_withdraw_with_secret keccak256 now st escrow_id secret
        = (st, Except.error ("DstPublicWithdrawal timelock not met. Current: "
            ++ natStr now ++ ", Required: "
            ++ natStr (e.immutables.timelocks.get TimelockStage.DstPublicWithdrawal))))
    ∧ (∀ e, lookupE st.escrows escrow_id = some e →
      (e.withdrawn || e.cancelled) = false →
      verify_hashlock keccak256 secret e.immutables.hashlock = true →
      e.immutables.timelocks.get TimelockStage.DstPublicWithdrawal ≤ now →
      lookupE (public_withdraw_with_secret keccak256 now st escrow_id
          secret).1.escrows escrow_id
        = some { e with withdrawn := true, secret := some secret }
      ∧ ∃ a, (public_withdraw_with_secret keccak256 now st escrow_id secret).2
          = Except.ok a) := by
  refine ⟨?_, ?_, ?_, ?_, ?_, ?_, ?_, ?_, ?_, ?_, ?_⟩
  · intro hl
    simp [withdraw_with_secret, hl]
  · intro e hl hw
    simp [withdraw_with_secret, hl, hw]
  · intro e hl hw hc
    simp [withdraw_with_secret, hl, hw, hc]
  · intro e hl hw hc hv
    simp [withdraw_with_secret, hl, hw, hc, hv]
  · intro e hl hw hc hv htl
    simp [withdraw_with_secret, hl, hw, hc, hv, htl]
  · intro e hl hw hc hv htl
    have hnl : ¬ now < e.immutables.timelocks.get TimelockStage.DstWithdrawal :=
      Nat.not_lt.2 htl
    constructor
    · simp only [withdraw_with_secret, hl, hw, hc, hv, hnl, Bool.not_true,
        Bool.false_eq_true, if_false, if_true]
      rw [lookupE_modifyE, hl]
      simp [hc]
    · refine ⟨?_, ?_⟩
      · exact match e.token_ledger with
          | some ledger => PostAction.icrcTransfer ledger e.icp_recipient
              (u256_to_u64 e.immutables.amount)
          | none => PostAction.logOnly
      · simp [withdraw_with_secret, hl, hw, hc, hv, hnl]
  · intro hl
    simp [public_withdraw_with_secret, hl]
  · intro e hl hwc
    simp [public_withdraw_with_secret, hl, hwc]
  · intro e hl hwc hv
    simp [public_withdraw_with_secret, hl, hwc, hv]
  · intro e hl hwc hv htl
    simp [public_withdraw_with_secret, hl, hwc, hv, htl]
  · intro e hl hwc hv htl
    have hnl : ¬ now < e.immutables.timelocks.get TimelockStage.DstPublicWithdrawal :=
      Nat.not_lt.2 htl
    constructor
    · simp only [public_withdraw_with_secret, hl, hwc, hv, hnl, Bool.not_true,
        Bool.false_eq_true, if_false, if_true]
      rw [lookupE_modifyE, hl]
      rfl
    · refine ⟨?_, ?_⟩
      · exact match e.token_ledger with
          | some ledger => PostAction.icrcTransfer ledger e.icp_recipient
              (u256_to_u64 e.immutables.amount)
          | none => PostAction.logOnly
      · simp [public_withdraw_with_secret, hl, hwc, hv, hnl]

/-- C1 witness: a successful Restricted withdrawal on a concrete store marks
the record withdrawn and stores the secret. -/
theorem withdraw_precondition_order_witness :
    lookupE (withdraw_with_secret idHash 2000 sampleState "escrow_1"
        sampleSecret).1.escrows "escrow_1"
      = some { sampleEscrow with withdrawn := true, secret := some sampleSecret } := by
  exact ((withdraw_precondition_order idHash 2000 sampleState "escrow_1"
    sampleSecret).2.2.2.2.2.1 sampleEscrow (by decide) rfl rfl (by decide)
    (by decide)).1

/-- C4 counterexample: a cancellation that meets every precondition (record
active, a token ledger configured, time past DstCancellation) succeeds but
performs no Ledger Adapter call — the source only logs the would-be refund
("token deposits not implemented yet"). -/
theorem cancel_refund_counterexample :
    (cancel_escrow 2000 sampleState "escrow_1").2 = Except.ok PostAction.logOnly
    ∧ PostAction.logOnly.isLedgerCall = false := by
  exact ⟨rfl, rfl⟩

/-- C4 corrected: cancellation succeeds exactly when the record exists, is
not withdrawn, is not cancelled, and the DstCancellation stage time has been
reached, and on success it sets `cancelled := true`; but it does not invoke
the Ledger Adapter — the refund of `amount` to `maker` is only logged (the
post action is `logOnly` even when a token ledger is configured). -/
theorem cancel_escrow_spec (now : Nat) (st : CanisterState) (escrow_id : String) :
    ((∃ a, (cancel_escrow now st escrow_id).2 = Except.ok a)
      ↔ ∃ e, lookupE st.escrows escrow_id = some e ∧ e.withdrawn = false
          ∧ e.cancelled = false
          ∧ e.immutables.timelocks.get TimelockStage.DstCancellation ≤ now)
    ∧ (∀ e, lookupE st.escrows escrow_id = some e → e.withdrawn = false →
        e.cancelled = false →
        e.immutables.timelocks.get TimelockStage.DstCancellation ≤ now →
        lookupE (cancel_escrow now st escrow_id).1.escrows escrow_id
          = some { e with cancelled := true }
        ∧ (cancel_escrow now st escrow_id).2 = Except.ok PostAction.logOnly
        ∧ PostAction.logOnly.isLedgerCall = false) := by
  constructor
  · constructor
    · rintro ⟨a, ha⟩
      cases hl : lookupE st.escrows escrow_id with
      | none => simp [cancel_escrow, hl] at ha
      | some e =>
        by_cases hw : e.withdrawn = true
        · simp [cancel_escrow, hl, hw] at ha
        · have hw2 : e.withdrawn = false := by simpa using hw
          by_cases hc : e.cancelled = true
          · simp [cancel_escrow, hl, hw2, hc] at ha
          · have hc2 : e.cancelled = false := by simpa using hc
            by_cases htl : now < e.immutables.timelocks.get TimelockStage.DstCancellation
            · simp [cancel_escrow, hl, hw2, hc2, htl] at ha
            · exact ⟨e, rfl, hw2, hc2, Nat.not_lt.1 htl⟩
    · rintro ⟨e, hl, hw, hc, htl⟩
      have hnl : ¬ now < e.immutables.timelocks.get TimelockStage.DstCancellation :=
        Nat.not_lt.2 htl
      exact ⟨PostAction.logOnly, by simp [cancel_escrow, hl, hw, hc, hnl]⟩
  · intro e hl hw hc htl
    have hnl : ¬ now < e.immutables.timelocks.get TimelockStage.DstCancellation :=
      Nat.not_lt.2 htl
    refine ⟨?_, ?_, rfl⟩
    · simp only [cancel_escrow, hl, hw, hc, hnl, Bool.false_eq_true, if_false]
      rw [lookupE_modifyE, hl]
      simp [hw]
    · simp [cancel_escrow, hl, hw, hc, hnl]

/-- C4 witness: the successful cancellation on the concrete store. -/
theorem cancel_escrow_spec_witness :
    lookupE (cancel_escrow 2000 sampleState "escrow_1").1.escrows "escrow_1"
      = some { sampleEscrow with cancelled := true } := by
  exact ((cancel_escrow_spec 2000 sampleState "escrow_1").2 sampleEscrow
    (by decide) rfl rfl (by decide)).1

/-- C5: whenever create, withdraw, public withdraw or cancel fails (returns
an error), the canister state — escrow map and counter — is exactly the
input state: in the source every check precedes every mutation. -/
theorem failed_ops_leave_state_unchanged (st : CanisterState) :
    (∀ now immutables recipient ledger chain addr msg,
      (create_escrow_with_immutables now st immutables recipient ledger chain
          addr).2 = Except.error msg →
      (create_escrow_with_immutables now st immutables recipient ledger chain
          addr).1 = st)
    ∧ (∀ keccak256 now escrow_id secret msg,
      (withdraw_with_secret keccak256 now st escrow_id secret).2 = Except.error msg →
      (withdraw_with_secret keccak256 now st escrow_id secret).1 = st)
    ∧ (∀ keccak256 now escrow_id secret msg,
      (public_withdraw_with_secret keccak256 now st escrow_id secret).2
          = Except.error msg →
      (public_withdraw_with_secret keccak256 now st escrow_id secret).1 = st)
    ∧ (∀ now escrow_id msg,
      (cancel_escrow now st escrow_id).2 = Except.error msg →
      (cancel_escrow now st escrow_id).1 = st) := by
  refine ⟨?_, ?_, ?_, ?_⟩
  · intro now immutables recipient ledger chain addr msg h
    by_cases h0 : immutables.order_hash = zeros32 ∨ immutables.hashlock = zeros32
    · simp [create_escrow_with_immutables, h0]
    · simp [create_escrow_with_immutables, h0] at h
  · intro keccak256 now escrow_id secret msg h
    cases hl : lookupE st.escrows escrow_id with
    | none => simp [withdraw_with_secret, hl]
    | some e =>
      by_cases hw : e.withdrawn = true
      · simp [withdraw_with_secret, hl, hw]
      · have hw2 : e.withdrawn = false := by simpa using hw
        by_cases hc : e.cancelled = true
        · simp [withdraw_with_secret, hl, hw2, hc]
        · have hc2 : e.cancelled = false := by simpa using hc
          by_cases hv : verify_hashlock keccak256 secret e.immutables.hashlock = true
          · by_cases htl : now < e.immutables.timelocks.get TimelockStage.DstWithdrawal
            · simp [withdraw_with_secret, hl, hw2, hc2, hv, htl]
            · simp [withdraw_with_secret, hl, hw2, hc2, hv, htl] at h
          · have hv2 : verify_hashlock keccak256 secret e.immutables.hashlock = false :=
              Bool.eq_false_iff.2 hv
            simp [withdraw_with_secret, hl, hw2, hc2, hv2]
  · intro keccak256 now escrow_id secret msg h
    cases hl : lookupE st.escrows escrow_id with
    | none => simp [public_withdraw_with_secret, hl]
    | some e =>
      by_cases hwc : (e.withdrawn || e.cancelled) = true
      · simp [public_withdraw_with_secret, hl, hwc]
      · have hwc2 : (e.withdrawn || e.cancelled) = false := Bool.eq_false_iff.2 hwc
        by_cases hv : verify_hashlock keccak256 secret e.immutables.hashlock = true
        · by_cases htl : now < e.immutables.timelocks.get TimelockStage.DstPublicWithdrawal
          · simp [public_withdraw_with_secret, hl, hwc2, hv, htl]
          · simp [public_withdraw_with_secret, hl, hwc2, hv, htl] at h
        · have hv2 : verify_hashlock keccak256 secret e.immutables.hashlock = false :=
            Bool.eq_false_iff.2 hv
          simp [public_withdraw_with_secret, hl, hwc2, hv2]
  · intro now escrow_id msg h
    cases hl : lookupE st.escrows escrow_id with
    | none => simp [cancel_escrow, hl]
    | some e =>
      by_cases hw : e.withdrawn = true
      · simp [cancel_escrow, hl, hw]
      · have hw2 : e.withdrawn = false := by simpa using hw
        by_cases hc : e.cancelled = true
        · simp [cancel_escrow, hl, hw2, hc]
        · have hc2 : e.cancelled = false := by simpa using hc
          by_cases htl : now < e.immutables.timelocks.get TimelockStage.DstCancellation
          · simp [cancel_escrow, hl, hw2, hc2, htl]
          · simp [cancel_escrow, hl, hw2, hc2, htl] at h

/-- C5 witness: a withdrawal attempted before its stage time fails and leaves
the concrete store untouched. -/
theorem failed_ops_leave_state_unchanged_witness :
    (withdraw_with_secret idHash 1001 sampleState "escrow_1" sampleSecret).1
      = sampleState := by
  exact (failed_ops_leave_state_unchanged sampleState).2.1 idHash 1001 "escrow_1"
    sampleSecret ("DstWithdrawal timelock not met. Current: " ++ natStr 1001
      ++ ", Required: " ++ natStr 1005) rfl

/-- Every key in the store was issued by the counter: it is `escrowId j` for
some `1 ≤ j ≤ counter`.  This holds of the empty initial store and creation
(the only inserting operation) preserves it. -/
def KeysBounded (st : CanisterState) : Prop :=
  ∀ p ∈ st.escrows, ∃ j, 1 ≤ j ∧ j ≤ st.counter ∧ p.1 = escrowId j

/-- C8: creation fails with the `InvalidInput` error exactly when
`order_hash` or `hashlock` is all-zero, leaving the state unchanged;
otherwise it issues the identifier of the incremented counter — fresh, i.e.
absent from the store, whenever every existing key was issued by the counter
— overwrites the deployment field of the caller's timelocks with the current
local time truncated to u32 (discarding any caller-supplied deployment
time), inserts a record with `withdrawn = false`, `cancelled = false`,
`secret = none`, `auto_withdraw_enabled = true`, returns the identifier, and
preserves key-issuance. -/
theorem create_escrow_spec (now : Nat) (st : CanisterState)
    (immutables : Immutables) (recipient : Principal) (ledger : Option Principal)
    (chain : Nat) (addr : String) :
    ((immutables.order_hash = zeros32 ∨ immutables.hashlock = zeros32) →
      create_escrow_with_immutables now st immutables recipient ledger chain addr
        = (st, Except.error "Invalid order hash or hashlock"))
    ∧ (immutables.order_hash ≠ zeros32 → immutables.hashlock ≠ zeros32 →
      (create_escrow_with_immutables now st immutables recipient ledger chain
          addr).2 = Except.ok (escrowId (st.counter + 1))
      ∧ (create_escrow_with_immutables now st immutables recipient ledger chain
          addr).1.counter = st.counter + 1
      ∧ (KeysBounded st →
        lookupE st.escrows (escrowId (st.counter + 1)) = none
        ∧ lookupE (create_escrow_with_immutables now st immutables recipient
              ledger chain addr).1.escrows (escrowId (st.counter + 1))
            = some {
              immutables := { immutables with
                timelocks := immutables.timelocks.set_deployed_at (now % 2 ^ 32) }
              icp_recipient := recipient
              token_ledger := ledger
              deployed_at := now
              secret := none
              withdrawn := false
              cancelled := false
              evm_chain_id := chain
              evm_escrow_address := addr
              auto_withdraw_enabled := true }
        ∧ KeysBounded (create_escrow_with_immutables now st immutables recipient
            ledger chain addr).1)) := by
  constructor
  · intro h0
    simp [create_escrow_with_immutables, h0]
  · intro ho hh
    have h0 : ¬ (immutables.order_hash = zeros32 ∨ immutables.hashlock = zeros32) := by
      rintro (h | h)
      exacts [ho h, hh h]
    refine ⟨by simp [create_escrow_with_immutables, h0], by
      simp [create_escrow_with_immutables, h0], ?_⟩
    intro hkb
    have hfresh : lookupE st.escrows (escrowId (st.counter + 1)) = none := by
      rw [lookupE_eq_none_iff]
      intro p hp hpe
      obtain ⟨j, hj1, hj2, hje⟩ := hkb p hp
      have heq : escrowId j = escrowId (st.counter + 1) := by
        rw [← hje]
        exact hpe
      have := escrowId_inj heq
      omega
    have hesc : (create_escrow_with_immutables now st immutables recipient ledger
        chain addr).1.escrows
        = st.escrows ++ [(escrowId (st.counter + 1), {
            immutables := { immutables with
              timelocks := immutables.timelocks.set_deployed_at (now % 2 ^ 32) }
            icp_recipient := recipient
            token_ledger := ledger
            deployed_at := now
            secret := none
            withdrawn := false
            cancelled := false
            evm_chain_id := chain
            evm_escrow_address := addr
            auto_withdraw_enabled := true })] := by
      simp [create_escrow_with_immutables, h0, insertE, hfresh]
    have hcnt : (create_escrow_with_immutables now st immutables recipient ledger
        chain addr).1.counter = st.counter + 1 := by
      simp [create_escrow_with_immutables, h0]
    refine ⟨hfresh, ?_, ?_⟩
    · rw [hesc]
      exact lookupE_append_some hfresh
    · intro p hp
      rw [hesc] at hp
      rw [hcnt]
      rcases List.mem_append.1 hp with hm | hm
      · obtain ⟨j, hj1, hj2, hje⟩ := hkb p hm
        exact ⟨j, hj1, by omega, hje⟩
      · simp only [List.mem_singleton] at hm
        subst hm
        exact ⟨st.counter + 1, by omega, by omega, rfl⟩

/-- C8 witness: on the concrete one-record store (whose key was issued for
counter value 1) the next identifier is fresh and returned. -/
theorem create_escrow_spec_witness :
    lookupE sampleState.escrows (escrowId 2) = none
    ∧ (create_escrow_with_immutables 1234 sampleState sampleImmutables "r" none
        1 "a").2 = Except.ok (escrowId 2) := by
  have h := (create_escrow_spec 1234 sampleState sampleImmutables "r" none 1
    "a").2 (by decide) (by decide)
  refine ⟨(h.2.2 ?_).1, h.1⟩
  intro p hp
  simp only [sampleState, List.mem_singleton] at hp
  subst hp
  exact ⟨1, by decide, by decide, by decide⟩

lemma scanLogs_eq_findSome (keccak256 : Bytes → Bytes) (hashlock : Bytes)
    (logs : List LogEntry) :
    scanLogs keccak256 hashlock logs
      = logs.findSome? (specEntrySecret keccak256 hashlock) := by
  induction logs with
  | nil => rfl
  | cons log rest ih =>
    rw [List.findSome?_cons]
    cases hg : log.topics.get? 2 with
    | none =>
      have hlen : log.topics.length ≤ 2 := List.get?_eq_none.1 hg
      have h3 : ¬ 3 ≤ log.topics.length := by omega
      rw [List.get?_eq_getElem?] at hg
      simp [scanLogs, specEntrySecret, hg, h3, ih]
    | some topic =>
      have h3 : 3 ≤ log.topics.length := by
        rcases Nat.lt_or_ge log.topics.length 3 with hlt | hge
        · rw [List.get?_eq_none.2 (by omega)] at hg
          simp at hg
        · exact hge
      rw [List.get?_eq_getElem?] at hg
      cases hd : hexDecode0x topic with
      | none => simp [scanLogs, specEntrySecret, hg, h3, hd, ih]
      | some s =>
        by_cases h32 : s.length = 32
        · by_cases hk : keccak256 s = hashlock
          · simp [scanLogs, specEntrySecret, hg, h3, hd, h32, hk]
          · simp [scanLogs, specEntrySecret, hg, h3, hd, h32, hk, ih]
        · simp [scanLogs, specEntrySecret, hg, h3, hd, h32, ih]

/-- C9: the monitor errors when the record is missing or already terminal;
given a parsed response carrying a log list it returns `ok` of the first
entry whose third topic hex-decodes to a 32-byte value hashing to the stored
hashlock (`specEntrySecret`), `ok none` when no entry matches or the
`result` field is absent; and a transport failure, an RPC-level error and a
response-parse failure are each surfaced as an error, never as "no secret". -/
theorem monitor_secret_revelation_spec (keccak256 : Bytes → Bytes)
    (st : CanisterState) (escrow_id : String) :
    (lookupE st.escrows escrow_id = none →
      ∀ rpc, monitor_evm_secret_revelation keccak256 st escrow_id rpc
        = Except.error "Escrow not found")
    ∧ (∀ e, lookupE st.escrows escrow_id = some e →
      (e.withdrawn || e.cancelled) = true →
      ∀ rpc, monitor_evm_secret_revelation keccak256 st escrow_id rpc
        = Except.error "Escrow already completed")
    ∧ (∀ e, lookupE st.escrows escrow_id = some e →
      (e.withdrawn || e.cancelled) = false →
      (∀ response logs, response.result = some logs →
        monitor_evm_secret_revelation keccak256 st escrow_id
            (RpcOutcome.parsed response)
          = Except.ok (logs.findSome?
              (specEntrySecret keccak256 e.immutables.hashlock)))
      ∧ (∀ response, response.result = none →
        monitor_evm_secret_revelation keccak256 st escrow_id
            (RpcOutcome.parsed response) = Except.ok none)
      ∧ (∀ msg, monitor_evm_secret_revelation keccak256 st escrow_id
            (RpcOutcome.callError msg)
          = Except.error ("Failed to call EVM RPC canister: " ++ msg))
      ∧ (∀ msg, monitor_evm_secret_revelation keccak256 st escrow_id
            (RpcOutcome.rpcError msg)
          = Except.error ("EVM RPC error: " ++ msg))
      ∧ (∀ msg, monitor_evm_secret_revelation keccak256 st escrow_id
            (RpcOutcome.parseError msg)
          = Except.error ("Failed to parse EVM RPC response: " ++ msg))) := by
  refine ⟨?_, ?_, ?_⟩
  · intro hl rpc
    simp [monitor_evm_secret_revelation, hl]
  · intro e hl hwc rpc
    simp [monitor_evm_secret_revelation, hl, hwc]
  · intro e hl hwc
    refine ⟨?_, ?_, ?_, ?_, ?_⟩
    · intro response logs hres
      simp [monitor_evm_secret_revelation, hl, hwc, hres, scanLogs_eq_findSome]
    · intro response hres
      simp [monitor_evm_secret_revelation, hl, hwc, hres]
    · intro msg
      simp [monitor_evm_secret_revelation, hl, hwc]
    · intro msg
      simp [monitor_evm_secret_revelation, hl, hwc]
    · intro msg
      simp [monitor_evm_secret_revelation, hl, hwc]

/-- A log entry whose third topic is the hex rendering of `sampleSecret`. -/
def sampleLog : LogEntry := {
  address := "0xaaaa"
  topics := ["0xsig", "0xorder", "0x0101010101010101010101010101010101010101010101010101010101010101"]
  data := ""
  block_number := none
  transaction_hash := none
  log_index := none }

def sampleResponse : GetLogsResponse :=
  { jsonrpc := "2.0", id := 1, result := some [sampleLog], error := none }

/-- C9 witness: on the concrete store the monitor extracts the matching
secret from the parsed log list. -/
theorem monitor_secret_revelation_spec_witness :
    monitor_evm_secret_revelation idHash sampleState "escrow_1"
        (RpcOutcome.parsed sampleResponse)
      = Except.ok (some sampleSecret) := by
  have h := ((monitor_secret_revelation_spec idHash sampleState
    "escrow_1").2.2 sampleEscrow (by decide) rfl).1 sampleResponse [sampleLog] rfl
  rw [h]
  exact congrArg Except.ok (by decide)
